import Mathlib

/-!
# go-sneck: the authorization gate

A shallow embedding of `lists.go` and `serve.go`: the wildcard matcher
(`ParseNetmask`, `CheckWildcardList`), the start-up list parser (`ParseLists`),
the session store (`visitorList`, a `sync.Map`), the decision function
`isAuthenticated` and the three HTTP handlers with the routing of `Serve`.

The packages the program imports (`net`, `net/url`, `time`, `sync`, the TOTP
validator, the rate limiter) are not part of the repository.  Their functions
are the fields of `Lib`, and every theorem holds for every `Lib`; `refLib` is an
executable instance used to evaluate the model at concrete requests.
-/

set_option autoImplicit false

namespace Sneck

/-! ## Values of the imported packages -/

/-- Go's `net.IP`, a byte slice. -/
abbrev IP := List Nat

/-- Go's `net.IPNet`: network number and mask. -/
structure IPNet where
  IP : Sneck.IP
  Mask : List Nat
deriving DecidableEq, Repr

/-- A Go `error`.  The program inspects one thing only: whether `errors.As`
finds a `*net.ParseError` in it (lists.go:35). -/
structure GoError where
  isParseError : Bool
  text : String
deriving DecidableEq, Repr

/-- An instant of `time.Time`: the reading of the monotonic clock that
`time.Now()` attaches, in nanoseconds.  `Time.Add` is addition and
`Time.Compare` the order of the integers. -/
abbrev Time := Int

/-- The two fields of `url.URL` that `ParseLists` reads. -/
structure URL where
  Path : String
  RawQuery : String
deriving DecidableEq, Repr

/-- The functions of the imported packages that the program calls. -/
structure Lib where
  /-- The function `net.ParseIP`; `none` is Go's `nil`. -/
  ParseIP : String → Option IP
  /-- The function `net.ParseCIDR`; the program drops the first result. -/
  ParseCIDR : String → Except GoError (IP × IPNet)
  /-- The method `net.IP.Equal`, receiver first. -/
  Equal : IP → IP → Bool
  /-- The method `net.IPNet.Contains`. -/
  Contains : IPNet → IP → Bool
  /-- The function `url.Parse`. -/
  urlParse : String → Except GoError URL
  /-- The call `u.Query().Get(key)`. -/
  queryGet : URL → String → String
  /-- The validity flag of `totp.ValidateCustom(code, secret, t, opts)` under the
  options of serve.go:176-181 (period 30, skew 0, six digits, SHA1). -/
  ValidateCustom : String → String → Time → Bool

/-! ## lists.go -/

/-- A registered user (lists.go:11). -/
structure User where
  name : String
  secret : String
deriving DecidableEq, Repr

/-- An allow or deny rule (lists.go:16): two pointers, `none` is `nil`. -/
structure Wildcard where
  IP : Option Sneck.IP
  Net : Option IPNet
deriving DecidableEq, Repr

/-- The zero value `Wildcard{}`. -/
def Wildcard.zero : Wildcard := { IP := none, Net := none }

/-- The function `ParseNetmask` (lists.go:26-45). -/
def ParseNetmask (L : Lib) (input : String) : Wildcard × Bool :=
  match L.ParseCIDR input with
  | .ok (_, network) => ({ IP := none, Net := some network }, true)
  | .error err =>
    if err.isParseError then
      match L.ParseIP input with
      | some ip => ({ IP := some ip, Net := none }, true)
      | none => (Wildcard.zero, false)
    else
      (Wildcard.zero, false)

/-- The `for ... range list` loop of `CheckWildcardList` (lists.go:53-65), with
its `switch true`: the first case that holds is the only one that runs. -/
def CheckWildcardList.loop (L : Lib) (ip : IP) : List Wildcard → Bool
  | [] => false
  | entry :: rest =>
    match entry.IP, entry.Net with
    | some x, _ => if L.Equal ip x then true else CheckWildcardList.loop L ip rest
    | none, some n => if L.Contains n ip then true else CheckWildcardList.loop L ip rest
    | none, none => CheckWildcardList.loop L ip rest

/-- The function `CheckWildcardList` (lists.go:47-66). -/
def CheckWildcardList (L : Lib) (input : String) (list : List Wildcard) : Bool :=
  match L.ParseIP input with
  | none => false
  | some ip => CheckWildcardList.loop L ip list

/-! ## main.go: configuration -/

/-- The struct `Config` (main.go:11-21). -/
structure Config where
  Users : List String
  AuthUrl : String
  LoginUrl : String
  SuccessUrl : String
  Timeout : Int
  Host : String
  Port : Int
  Allow : List String
  Deny : List String
deriving DecidableEq, Repr

/-- Conversion to a Go `int64`: two's complement wrap-around. -/
def wrapInt64 (x : Int) : Int :=
  (x + 9223372036854775808) % 18446744073709551616 - 9223372036854775808

/-- The constant `time.Minute`, in nanoseconds. -/
def Minute : Int := 60000000000

/-- The expression `time.Duration(cfg.Timeout)*time.Minute` (serve.go:134), an
`int64` product. -/
def timeoutDuration (cfg : Config) : Int :=
  wrapInt64 (wrapInt64 cfg.Timeout * Minute)

/-! ## The session store -/

/-- One call into the session store. -/
inductive MapCall where
  | load (key : String)
  | store (key : String) (value : Time)
  | delete (key : String)
deriving DecidableEq, Repr

/-- The variable `visitorList` (serve.go:31), a `sync.Map` from the address text
to the time of the last authentication.  `calls` records every call made into
the map, reads included, so that "the store is not called" can be stated; the
program only ever stores `time.Time` values, hence the type assertion of
serve.go:129 succeeds. -/
structure SyncMap where
  entries : List (String × Time)
  calls : List MapCall
deriving DecidableEq, Repr

/-- The entry of a key, without a call into the map. -/
def SyncMap.get (m : SyncMap) (key : String) : Option Time :=
  m.entries.lookup key

/-- The method `sync.Map.Load`. -/
def SyncMap.Load (m : SyncMap) (key : String) : Option Time × SyncMap :=
  (m.entries.lookup key, { m with calls := m.calls ++ [MapCall.load key] })

/-- The method `sync.Map.Store`. -/
def SyncMap.Store (m : SyncMap) (key : String) (value : Time) : SyncMap :=
  { entries := (key, value) :: m.entries.filter (fun e => e.1 != key)
    calls := m.calls ++ [MapCall.store key value] }

/-- The method `sync.Map.Delete`. -/
def SyncMap.Delete (m : SyncMap) (key : String) : SyncMap :=
  { entries := m.entries.filter (fun e => e.1 != key)
    calls := m.calls ++ [MapCall.delete key] }

/-! ## serve.go -/

/-- The package-level variables read by the handlers after start-up. -/
structure Globals where
  cfg : Config
  userList : List User
  allowList : List Wildcard
  denyList : List Wildcard
deriving DecidableEq, Repr

/-- The function `isAuthenticated` (serve.go:112-142).  `now` is the reading of
`time.Now()` at line 133 and `storeNow` the one at line 136. -/
def isAuthenticated (L : Lib) (g : Globals) (visitorList : SyncMap) (ip : String)
    (now storeNow : Time) : Bool × SyncMap :=
  if CheckWildcardList L ip g.denyList then
    (false, visitorList)
  else if CheckWildcardList L ip g.allowList then
    (true, visitorList)
  else
    match visitorList.Load ip with
    | (none, m) => (false, m)
    | (some lastSeen, m) =>
      if now < lastSeen + timeoutDuration g.cfg then
        (true, m.Store ip storeNow)
      else
        (false, m.Delete ip)

/-- The constant `IPHeader` (serve.go:29). -/
def IPHeader : String := "X-Real-IP"

/-- What the handlers read of an `http.Request`: the method, the headers, and
the outcome of `r.ParseForm()` (an error, or the values of `r.Form`). -/
structure Request where
  Method : String
  Header : List (String × String)
  ParseForm : Except GoError (List (String × String))

/-- The methods `Header.Get` and `Values.Get`: the first value stored under the
key, the empty string when there is none. -/
def valuesGet (values : List (String × String)) (key : String) : String :=
  (values.lookup key).getD ""

/-- What a handler writes to its `http.ResponseWriter`: the status code and,
for `http.Redirect`, the URL it is given. -/
structure Response where
  status : Nat
  location : Option String
deriving DecidableEq, Repr

/-- The readings of `time.Now()` while one request is handled, in the order of
the calls: serve.go:133, 136 (inside `isAuthenticated`), 170 and 187. -/
structure Clock where
  authNow : Time
  authStore : Time
  thatTime : Time
  loginStore : Time
deriving DecidableEq, Repr

/-- The function `TestRealIP` (serve.go:79-91).  The error branch carries what
line 87 wrote to the response. -/
def TestRealIP (L : Lib) (r : Request) : Except Response String :=
  let realIP := valuesGet r.Header IPHeader
  match L.ParseIP realIP with
  | none => .error { status := 500, location := none }
  | some _ => .ok realIP

/-- The function `AuthHandler` (serve.go:96-108). -/
def AuthHandler (L : Lib) (g : Globals) (visitorList : SyncMap) (r : Request)
    (clk : Clock) : Response × SyncMap :=
  match TestRealIP L r with
  | .error w => (w, visitorList)
  | .ok realIP =>
    match isAuthenticated L g visitorList realIP clk.authNow clk.authStore with
    | (true, m) => ({ status := 202, location := none }, m)
    | (false, m) => ({ status := 401, location := none }, m)

/-- The loop over `userList` of `LoginHandlerPost` (serve.go:171-193). -/
def LoginHandlerPost.loop (L : Lib) (g : Globals) (inputCode realIP : String)
    (clk : Clock) (m : SyncMap) : List User → Response × SyncMap
  | [] => ({ status := 403, location := none }, m)
  | user :: rest =>
    if L.ValidateCustom inputCode user.secret clk.thatTime then
      ({ status := 302, location := some g.cfg.SuccessUrl }, m.Store realIP clk.loginStore)
    else
      LoginHandlerPost.loop L g inputCode realIP clk m rest

/-- The function `LoginHandlerPost` (serve.go:145-194). -/
def LoginHandlerPost (L : Lib) (g : Globals) (visitorList : SyncMap) (r : Request)
    (clk : Clock) : Response × SyncMap :=
  match TestRealIP L r with
  | .error w => (w, visitorList)
  | .ok realIP =>
    match isAuthenticated L g visitorList realIP clk.authNow clk.authStore with
    | (true, m) => ({ status := 302, location := some g.cfg.SuccessUrl }, m)
    | (false, m) =>
      match r.ParseForm with
      | .error _ => ({ status := 500, location := none }, m)
      | .ok form =>
        let inputCode := valuesGet form "otp"
        if inputCode = "" then
          ({ status := 400, location := none }, m)
        else
          LoginHandlerPost.loop L g inputCode realIP clk m g.userList

/-- The function `LoginHandlerGet` (serve.go:197-213); writing the page gives
the implicit status 200. -/
def LoginHandlerGet (L : Lib) (g : Globals) (visitorList : SyncMap) (r : Request)
    (clk : Clock) : Response × SyncMap :=
  match TestRealIP L r with
  | .error w => (w, visitorList)
  | .ok realIP =>
    match isAuthenticated L g visitorList realIP clk.authNow clk.authStore with
    | (true, m) => ({ status := 302, location := some g.cfg.SuccessUrl }, m)
    | (false, m) => ({ status := 200, location := none }, m)

/-- The handler `limiterMiddleware.Handler(h)` (serve.go:46-48, 57).  `reached`
is the verdict of the limiter on this request (one request per five seconds
under the single key "global"): when the limit is reached the middleware
answers 429 and does not call `h`. -/
def limiterHandler (reached : Bool) (h : SyncMap → Response × SyncMap)
    (visitorList : SyncMap) : Response × SyncMap :=
  if reached then ({ status := 429, location := none }, visitorList) else h visitorList

/-- The handler registered for `cfg.AuthUrl` (serve.go:53). -/
def Serve.authRoute (L : Lib) (g : Globals) (visitorList : SyncMap) (r : Request)
    (clk : Clock) : Response × SyncMap :=
  AuthHandler L g visitorList r clk

/-- The handler registered for `cfg.LoginUrl` (serve.go:56-68). -/
def Serve.loginRoute (L : Lib) (g : Globals) (reached : Bool) (visitorList : SyncMap)
    (r : Request) (clk : Clock) : Response × SyncMap :=
  if r.Method = "GET" then
    LoginHandlerGet L g visitorList r clk
  else if r.Method = "POST" then
    limiterHandler reached (fun m => LoginHandlerPost L g m r clk) visitorList
  else
    ({ status := 405, location := none }, visitorList)

/-! ## lists.go: `ParseLists` -/

/-- Pieces of a character list between the occurrences of `sep`. -/
def splitChars (sep : Char) : List Char → List (List Char)
  | [] => [[]]
  | c :: cs =>
    if c = sep then
      [] :: splitChars sep cs
    else
      match splitChars sep cs with
      | [] => [[c]]
      | piece :: pieces => (c :: piece) :: pieces

/-- The function `strings.Split` for a separator of one character. -/
def stringsSplit (s : String) (sep : Char) : List String :=
  (splitChars sep s.toList).map String.mk

/-- The loops over `cfg.Allow` and `cfg.Deny` (lists.go:79-89), appending to
the list built so far. -/
def ParseLists.wildcards (L : Lib) : List String → List Wildcard → List Wildcard
  | [], list => list
  | ip :: rest, list =>
    match ParseNetmask L ip with
    | (thatIP, true) => ParseLists.wildcards L rest (list ++ [thatIP])
    | (_, false) => ParseLists.wildcards L rest list

/-- The user name `ParseLists` takes from the path (lists.go:114-118). -/
def ParseLists.username (path : String) : String :=
  match stringsSplit path ':' with
  | [_, name] => name
  | _ => ""

/-- The loop over `cfg.Users` (lists.go:106-126). -/
def ParseLists.users (L : Lib) : List String → List User → List User
  | [], userList => userList
  | user :: rest, userList =>
    match L.urlParse user with
    | .error _ => ParseLists.users L rest userList
    | .ok url =>
      let secret := L.queryGet url "secret"
      let username := ParseLists.username url.Path
      if secret ≠ "" ∧ username ≠ "" then
        ParseLists.users L rest (userList ++ [{ name := username, secret := secret }])
      else
        ParseLists.users L rest userList

/-- The function `ParseLists` (lists.go:78-137), without its logging. -/
def ParseLists (L : Lib) (g : Globals) : Globals :=
  { cfg := g.cfg
    userList := ParseLists.users L g.cfg.Users g.userList
    allowList := ParseLists.wildcards L g.cfg.Allow g.allowList
    denyList := ParseLists.wildcards L g.cfg.Deny g.denyList }

/-- The package-level variables when `main` calls `ParseLists`: the
configuration is loaded and the three lists are `nil`. -/
def Globals.atStart (cfg : Config) : Globals :=
  { cfg := cfg, userList := [], allowList := [], denyList := [] }

/-! ## An executable instance of the imported packages

`refLib` stands in for the packages on the inputs used in the examples below:
dotted IPv4 text, IPv4 CIDR text, `scheme://host/path?query` URLs, and a toy
code check in place of HMAC-SHA1.  No theorem depends on it except the
evaluations at concrete inputs. -/

namespace refLib

/-- Value of a digit character. -/
def digit (c : Char) : Option Nat :=
  if c.isDigit then some (c.toNat - 48) else none

/-- Value of a non-empty string of digits, read left to right onto `acc`. -/
def decimalFrom (acc : Nat) : List Char → Option Nat
  | [] => some acc
  | c :: cs =>
    match digit c with
    | none => none
    | some d => decimalFrom (10 * acc + d) cs

/-- Value of a non-empty string of digits. -/
def decimal (cs : List Char) : Option Nat :=
  if cs = [] then none else decimalFrom 0 cs

/-- One field of a dotted IPv4 address: one to three digits, no leading zero,
at most 255. -/
def octet (cs : List Char) : Option Nat :=
  match decimal cs with
  | none => none
  | some n =>
    if cs.length ≤ 3 ∧ n ≤ 255 ∧ (cs.length = 1 ∨ cs.head? ≠ some '0') then some n else none

/-- The four bytes of a dotted IPv4 address. -/
def parseIPv4 (cs : List Char) : Option (List Nat) :=
  match (splitChars '.' cs).map octet with
  | [some a, some b, some c, some d] => some [a, b, c, d]
  | _ => none

/-- The prefix of an IPv4 address in its 16-byte form. -/
def v4InV6Prefix : List Nat := [0, 0, 0, 0, 0, 0, 0, 0, 0, 0, 255, 255]

/-- The method `IP.To4`. -/
def To4 (ip : IP) : Option IP :=
  if ip.length = 4 then some ip
  else if ip.length = 16 ∧ ip.take 12 = v4InV6Prefix then some (ip.drop 12)
  else none

/-- The function `net.ParseIP` on IPv4 text, dotted (`10.0.0.5`) or mapped into
IPv6 (`::ffff:10.0.0.5`): the 16-byte form in both cases. -/
def ParseIP (s : String) : Option IP :=
  let dotted := if s.toList.take 7 = "::ffff:".toList then s.toList.drop 7 else s.toList
  (parseIPv4 dotted).map (fun q => v4InV6Prefix ++ q)

/-- The function `net.CIDRMask(ones, 32)`. -/
def CIDRMask (ones : Nat) : List Nat :=
  (List.range 4).map (fun i => 255 - (255 >>> (ones - 8 * i)))

/-- The function `net.ParseCIDR` on IPv4 text; every error is a
`*net.ParseError`. -/
def ParseCIDR (s : String) : Except GoError (IP × IPNet) :=
  match splitChars '/' s.toList with
  | [addr, mask] =>
    match parseIPv4 addr, decimal mask with
    | some q, some n =>
      if n ≤ 32 then
        .ok (v4InV6Prefix ++ q,
          { IP := List.zipWith Nat.land q (CIDRMask n), Mask := CIDRMask n })
      else .error { isParseError := true, text := s }
    | _, _ => .error { isParseError := true, text := s }
  | _ => .error { isParseError := true, text := s }

/-- The method `net.IP.Equal`: an IPv4 address equals its 16-byte form. -/
def Equal (ip x : IP) : Bool :=
  if ip.length = x.length then ip == x
  else if ip.length = 4 ∧ x.length = 16 then x.take 12 == v4InV6Prefix && ip == x.drop 12
  else if ip.length = 16 ∧ x.length = 4 then ip.take 12 == v4InV6Prefix && ip.drop 12 == x
  else false

/-- The method `net.IPNet.Contains` for a network with a 4-byte mask. -/
def Contains (n : IPNet) (ip : IP) : Bool :=
  match To4 n.IP with
  | none => false
  | some nn =>
    let x := (To4 ip).getD ip
    x.length == nn.length
      && List.zipWith Nat.land nn n.Mask == List.zipWith Nat.land x n.Mask

/-- The function `url.Parse` on `scheme://host/path?query` text; a blank is an
error. -/
def urlParse (s : String) : Except GoError URL :=
  if ' ' ∈ s.toList then .error { isParseError := false, text := s }
  else
    match splitChars '?' s.toList with
    | [] => .ok { Path := "", RawQuery := "" }
    | front :: query =>
      .ok { Path := String.mk ((splitChars '/' front).drop 3 |>.map ('/' :: ·) |>.flatten)
            RawQuery := String.mk (List.intercalate ['?'] query) }

/-- The call `u.Query().Get(key)`: the first `key=value` pair of the query. -/
def queryGet (u : URL) (key : String) : String :=
  let pairs := (splitChars '&' u.RawQuery.toList).map (fun kv =>
    match splitChars '=' kv with
    | [] => ("", "")
    | k :: v => (String.mk k, String.mk (List.intercalate ['='] v)))
  valuesGet pairs key

/-- A toy code: six digits that depend on the secret and on the 30-second step
of the instant. -/
def code (secret : String) (t : Time) : Nat :=
  ((secret.toList.map Char.toNat).sum * 7919 + (t / 30000000000).toNat) % 1000000

/-- Stand-in for `totp.ValidateCustom`: six digits equal to `code`. -/
def ValidateCustom (input secret : String) (t : Time) : Bool :=
  input.length == 6 && decimal input.toList == some (code secret t)

end refLib

/-- The executable instance. -/
def refLib : Lib :=
  { ParseIP := refLib.ParseIP
    ParseCIDR := refLib.ParseCIDR
    Equal := refLib.Equal
    Contains := refLib.Contains
    urlParse := refLib.urlParse
    queryGet := refLib.queryGet
    ValidateCustom := refLib.ValidateCustom }

/-! ## Histories of the session store -/

/-- The two places of serve.go that touch `visitorList`: a call of
`isAuthenticated` (lines 125-140) and the `Store` of a granted login
(line 187). -/
inductive StoreEvent where
  | check (ip : String) (now storeNow : Time)
  | login (ip : String) (storeNow : Time)
deriving DecidableEq, Repr

/-- The session store after a sequence of events. -/
def after (L : Lib) (g : Globals) : SyncMap → List StoreEvent → SyncMap
  | m, [] => m
  | m, StoreEvent.check ip now storeNow :: rest =>
    after L g (isAuthenticated L g m ip now storeNow).2 rest
  | m, StoreEvent.login ip storeNow :: rest =>
    after L g (m.Store ip storeNow) rest

/-! ## Statements of the specification -/

/-- The matching rule of the specification for one entry: an exact-address
entry (its address is set) matches the addresses equal to it under `IP.Equal`,
a network entry (only its network is set) matches the addresses it contains,
and the zero value matches nothing. -/
def Wildcard.matchesIP (L : Lib) (w : Wildcard) (ip : Sneck.IP) : Bool :=
  match w.IP, w.Net with
  | some x, _ => L.Equal ip x
  | none, some n => L.Contains n ip
  | none, none => false

/-- Exactly one of the two variants of a `Wildcard` is populated. -/
def Wildcard.oneVariant (w : Wildcard) : Prop :=
  (w.IP.isSome = true ∧ w.Net = none) ∨ (w.IP = none ∧ w.Net.isSome = true)

instance (w : Wildcard) : Decidable w.oneVariant := by
  unfold Wildcard.oneVariant; infer_instance

/-- The user an enrolment URL contributes according to the specification: the
URL must parse and carry both a non-empty `secret` query parameter and a
non-empty user name in its path. -/
def enrolledUser (L : Lib) (text : String) : Option User :=
  match L.urlParse text with
  | .error _ => none
  | .ok url =>
    if L.queryGet url "secret" ≠ "" ∧ ParseLists.username url.Path ≠ "" then
      some { name := ParseLists.username url.Path, secret := L.queryGet url "secret" }
    else
      none

/-! ## Example data -/

/-- A configuration with the defaults of main.go, one deny rule, two allow rules
and three enrolment URLs, the second without a secret. -/
def exCfg : Config :=
  { Users := ["otpauth://totp/sneck:alice?secret=ABCDEF&issuer=sneck",
              "otpauth://totp/sneck:bob?issuer=sneck",
              "otpauth://totp/sneck:carol?secret=XYZ"]
    AuthUrl := "/@authorize"
    LoginUrl := "/@login"
    SuccessUrl := "/"
    Timeout := 1440
    Host := "127.0.0.1"
    Port := 4302
    Allow := ["192.168.1.0/24", "172.16.0.9"]
    Deny := ["10.0.0.0/8"] }

/-- The package-level variables after `ParseLists` on `exCfg`. -/
def exGlobals : Globals := ParseLists refLib (Globals.atStart exCfg)

/-- A login submission from `203.0.113.7` with the given code. -/
def exPost (otp : String) : Request :=
  { Method := "POST"
    Header := [("X-Real-IP", "203.0.113.7")]
    ParseForm := .ok [("otp", otp)] }

/-- A request without the `X-Real-IP` header. -/
def exBare (method : String) : Request :=
  { Method := method, Header := [], ParseForm := .ok [("otp", "207198")] }

/-- Clock readings of a request handled at `t`, one nanosecond apart. -/
def exClock (t : Time) : Clock :=
  { authNow := t, authStore := t + 1, thatTime := t + 2, loginStore := t + 3 }

/-- The empty session store. -/
def SyncMap.empty : SyncMap := { entries := [], calls := [] }

/-! ## Lemmas on the session store -/

theorem lookup_filter_ne_self (key : String) (l : List (String × Time)) :
    (l.filter (fun e => e.1 != key)).lookup key = none := by
  induction l with
  | nil => rfl
  | cons e l ih =>
    obtain ⟨k, v⟩ := e
    by_cases h : k = key
    · simp [List.filter_cons, h, ih]
    · have hk : (key == k) = false := by
        simp only [beq_eq_false_iff_ne, ne_eq]; exact fun h' => h h'.symm
      have hf : (k != key) = true := by simp [h]
      simp only [List.filter_cons, hf, if_true, List.lookup_cons, hk, ih]

theorem lookup_filter_ne_other (key other : String) (hne : other ≠ key)
    (l : List (String × Time)) :
    (l.filter (fun e => e.1 != key)).lookup other = l.lookup other := by
  induction l with
  | nil => rfl
  | cons e l ih =>
    obtain ⟨k, v⟩ := e
    by_cases h : k = key
    · have hk : (other == k) = false := by
        simp only [beq_eq_false_iff_ne, ne_eq]; rw [h]; exact hne
      have hf : (k != key) = false := by simp [h]
      simp only [List.filter_cons, hf, List.lookup_cons, hk]
      simpa using ih
    · have hf : (k != key) = true := by simp [h]
      simp only [List.filter_cons, hf, if_true, List.lookup_cons, ih]

theorem SyncMap.get_Store_self (m : SyncMap) (key : String) (value : Time) :
    (m.Store key value).get key = some value := by
  simp [SyncMap.Store, SyncMap.get, List.lookup]

theorem SyncMap.get_Store_other (m : SyncMap) (key other : String) (value : Time)
    (hne : other ≠ key) : (m.Store key value).get other = m.get other := by
  have hk : (other == key) = false := by
    simp only [beq_eq_false_iff_ne, ne_eq]; exact hne
  simp only [SyncMap.Store, SyncMap.get, List.lookup, hk]
  exact lookup_filter_ne_other key other hne m.entries

theorem SyncMap.get_Delete_self (m : SyncMap) (key : String) :
    (m.Delete key).get key = none :=
  lookup_filter_ne_self key m.entries

theorem SyncMap.get_Delete_other (m : SyncMap) (key other : String) (hne : other ≠ key) :
    (m.Delete key).get other = m.get other :=
  lookup_filter_ne_other key other hne m.entries

/-! ## The wildcard matcher -/

theorem CheckWildcardList.loop_iff (L : Lib) (ip : IP) (list : List Wildcard) :
    CheckWildcardList.loop L ip list = true ↔ ∃ w ∈ list, w.matchesIP L ip = true := by
  induction list with
  | nil => simp [CheckWildcardList.loop]
  | cons e rest ih =>
    obtain ⟨eip, enet⟩ := e
    cases eip with
    | some x =>
      by_cases hx : L.Equal ip x = true
      · simp [CheckWildcardList.loop, Wildcard.matchesIP, hx]
      · simp [CheckWildcardList.loop, Wildcard.matchesIP, hx, ih]
    | none =>
      cases enet with
      | some n =>
        by_cases hn : L.Contains n ip = true
        · simp [CheckWildcardList.loop, Wildcard.matchesIP, hn]
        · simp [CheckWildcardList.loop, Wildcard.matchesIP, hn, ih]
      | none => simp [CheckWildcardList.loop, Wildcard.matchesIP, ih]

/-- C8: `CheckWildcardList address list` is true exactly when `address` parses
as an IP and some entry of `list` matches it, an exact-address entry by
`IP.Equal` and a network entry by `IPNet.Contains`; it is false for every
address that does not parse and for the empty list. -/
theorem CheckWildcardList_iff_matches (L : Lib) (address : String) (list : List Wildcard) :
    (CheckWildcardList L address list = true ↔
      ∃ ip, L.ParseIP address = some ip ∧ ∃ w ∈ list, w.matchesIP L ip = true)
    ∧ (L.ParseIP address = none → CheckWildcardList L address list = false)
    ∧ CheckWildcardList L address [] = false := by
  refine ⟨?_, ?_, ?_⟩
  · unfold CheckWildcardList
    cases hp : L.ParseIP address with
    | none => simp
    | some ip => simp [CheckWildcardList.loop_iff]
  · intro hp
    simp [CheckWildcardList, hp]
  · unfold CheckWildcardList
    cases L.ParseIP address <;> simp [CheckWildcardList.loop]

/-- C8 at two texts of one address: the entry parsed from `172.16.0.9` matches
the address written `::ffff:172.16.0.9`; an address that does not parse matches
nothing. -/
theorem CheckWildcardList_iff_matches_witness :
    CheckWildcardList refLib "::ffff:172.16.0.9" exGlobals.allowList = true
    ∧ CheckWildcardList refLib "172.16.0.9/32" exGlobals.allowList = false :=
  ⟨(CheckWildcardList_iff_matches refLib "::ffff:172.16.0.9" exGlobals.allowList).1.mpr
     ⟨[0, 0, 0, 0, 0, 0, 0, 0, 0, 0, 255, 255, 172, 16, 0, 9], by decide,
      { IP := some [0, 0, 0, 0, 0, 0, 0, 0, 0, 0, 255, 255, 172, 16, 0, 9], Net := none },
      by decide, by decide⟩,
   (CheckWildcardList_iff_matches refLib "172.16.0.9/32" exGlobals.allowList).2.1 (by decide)⟩

theorem refLib.ParseCIDR_error (s : String) (e : GoError)
    (h : refLib.ParseCIDR s = .error e) : e.isParseError = true := by
  unfold refLib.ParseCIDR at h
  split at h
  · split at h
    · split at h
      · cases h
      · cases h; rfl
    · cases h; rfl
  · cases h; rfl

/-- C9: when every error of `ParseCIDR` is a `*net.ParseError` (as in Go's `net`
package), `ParseNetmask text` succeeds exactly when `text` is a CIDR network or
a bare IP address; for a CIDR network the result holds the network only, for a
bare IP the address only, so exactly one variant is populated on success; on
failure the result is the zero `Wildcard`. -/
theorem ParseNetmask_variants (L : Lib)
    (hL : ∀ s e, L.ParseCIDR s = .error e → e.isParseError = true) (text : String) :
    ((ParseNetmask L text).2 = true ↔
      ((∃ r, L.ParseCIDR text = .ok r) ∨ (∃ ip, L.ParseIP text = some ip)))
    ∧ (∀ r, L.ParseCIDR text = .ok r →
        ParseNetmask L text = ({ IP := none, Net := some r.2 }, true))
    ∧ (∀ e ip, L.ParseCIDR text = .error e → L.ParseIP text = some ip →
        ParseNetmask L text = ({ IP := some ip, Net := none }, true))
    ∧ ((ParseNetmask L text).2 = true → (ParseNetmask L text).1.oneVariant)
    ∧ ((ParseNetmask L text).2 = false → (ParseNetmask L text).1 = Wildcard.zero) := by
  unfold ParseNetmask
  cases hc : L.ParseCIDR text with
  | ok r =>
    obtain ⟨a, n⟩ := r
    simp [Wildcard.oneVariant]
  | error e =>
    have he : e.isParseError = true := hL text e hc
    cases hp : L.ParseIP text with
    | none => simp [he, Wildcard.zero]
    | some ip => simp [he, Wildcard.oneVariant]

/-- C9 at concrete texts: the reference instance returns parse errors only; a
bare address, which is not a CIDR network, is accepted as an exact address; a
text that is neither is refused with the zero `Wildcard`. -/
theorem ParseNetmask_variants_witness :
    (∀ s e, refLib.ParseCIDR s = .error e → e.isParseError = true)
    ∧ ParseNetmask refLib "172.16.0.9"
        = ({ IP := some [0, 0, 0, 0, 0, 0, 0, 0, 0, 0, 255, 255, 172, 16, 0, 9], Net := none }, true)
    ∧ ((ParseNetmask refLib "172.16.0.900").2 = true ↔
        ((∃ r, refLib.ParseCIDR "172.16.0.900" = .ok r)
          ∨ (∃ ip, refLib.ParseIP "172.16.0.900" = some ip)))
    ∧ (ParseNetmask refLib "172.16.0.900").1 = Wildcard.zero :=
  ⟨refLib.ParseCIDR_error,
   (ParseNetmask_variants refLib refLib.ParseCIDR_error "172.16.0.9").2.2.1
     { isParseError := true, text := "172.16.0.9" }
     [0, 0, 0, 0, 0, 0, 0, 0, 0, 0, 255, 255, 172, 16, 0, 9] (by rfl) (by decide),
   (ParseNetmask_variants refLib refLib.ParseCIDR_error "172.16.0.900").1,
   (ParseNetmask_variants refLib refLib.ParseCIDR_error "172.16.0.900").2.2.2.2 (by decide)⟩

/-! ## The decision function -/

/-- What `isAuthenticated` does for an address in neither list. -/
theorem isAuthenticated_session (L : Lib) (g : Globals) (m : SyncMap) (ip : String)
    (now storeNow : Time)
    (hdeny : CheckWildcardList L ip g.denyList = false)
    (hallow : CheckWildcardList L ip g.allowList = false) :
    isAuthenticated L g m ip now storeNow =
      match m.get ip with
      | none => (false, (m.Load ip).2)
      | some lastSeen =>
        if now < lastSeen + timeoutDuration g.cfg then (true, (m.Load ip).2.Store ip storeNow)
        else (false, (m.Load ip).2.Delete ip) := by
  unfold isAuthenticated
  simp only [hdeny, hallow, SyncMap.Load, SyncMap.get]
  cases m.entries.lookup ip <;> simp

/-- A call of `isAuthenticated`, for any address, leaves an absent key absent. -/
theorem isAuthenticated_keeps_absent (L : Lib) (g : Globals) (m : SyncMap)
    (ip other : String) (now storeNow : Time) (habs : m.get ip = none) :
    (isAuthenticated L g m other now storeNow).2.get ip = none := by
  by_cases hd : CheckWildcardList L other g.denyList = true
  · simpa [isAuthenticated, hd] using habs
  by_cases ha : CheckWildcardList L other g.allowList = true
  · simpa [isAuthenticated, hd, ha] using habs
  rw [isAuthenticated_session L g m other now storeNow (by simpa using hd) (by simpa using ha)]
  cases hl : m.get other with
  | none => exact habs
  | some lastSeen =>
    have hio : ip ≠ other := by
      rintro rfl
      rw [habs] at hl
      cases hl
    by_cases hlt : now < lastSeen + timeoutDuration g.cfg
    · simp only [hlt, if_true]
      rw [SyncMap.get_Store_other _ _ _ _ hio]
      exact habs
    · simp only [hlt, if_false]
      rw [SyncMap.get_Delete_other _ _ _ hio]
      exact habs

theorem after_keeps_absent (L : Lib) (g : Globals) (ip : String)
    (later : List StoreEvent) :
    ∀ m : SyncMap, (∀ t, StoreEvent.login ip t ∉ later) → m.get ip = none →
      (after L g m later).get ip = none := by
  induction later with
  | nil => intro m _ h; exact h
  | cons ev rest ih =>
    intro m hno h
    have hrest : ∀ t, StoreEvent.login ip t ∉ rest :=
      fun t ht => hno t (List.mem_cons_of_mem _ ht)
    cases ev with
    | check other now storeNow =>
      exact ih _ hrest (isAuthenticated_keeps_absent L g m ip other now storeNow h)
    | login other storeNow =>
      have hne : ip ≠ other := by
        rintro rfl
        exact hno storeNow (List.mem_cons_self _ _)
      refine ih _ hrest ?_
      rw [SyncMap.get_Store_other _ _ _ _ hne]
      exact h

/-- C1: an address that matches the deny list is not authenticated, whatever the
allow list, the session store and the time. -/
theorem isAuthenticated_deny (L : Lib) (g : Globals) (visitorList : SyncMap)
    (ip : String) (now storeNow : Time)
    (hdeny : CheckWildcardList L ip g.denyList = true) :
    (isAuthenticated L g visitorList ip now storeNow).1 = false := by
  simp [isAuthenticated, hdeny]

/-- C1 on the scenario of the specification: `10.0.0.0/8` is denied, the store
holds a fresh entry for `10.0.0.5`, and `10.0.0.5` is refused. -/
theorem isAuthenticated_deny_witness :
    CheckWildcardList refLib "10.0.0.5" exGlobals.denyList = true
    ∧ (isAuthenticated refLib exGlobals
        { entries := [("10.0.0.5", 1000)], calls := [] } "10.0.0.5" 2000 2001).1 = false :=
  ⟨by decide, isAuthenticated_deny refLib exGlobals _ "10.0.0.5" 2000 2001 (by decide)⟩

/-- C2: an address that matches the allow list and not the deny list is
authenticated, and the session store is returned as it was: no entry is added,
refreshed or removed and no call is made into the store. -/
theorem isAuthenticated_allow (L : Lib) (g : Globals) (visitorList : SyncMap)
    (ip : String) (now storeNow : Time)
    (hallow : CheckWildcardList L ip g.allowList = true)
    (hdeny : CheckWildcardList L ip g.denyList = false) :
    isAuthenticated L g visitorList ip now storeNow = (true, visitorList) := by
  simp [isAuthenticated, hdeny, hallow]

/-- C2 at an allowed address whose entry in the store is long expired. -/
theorem isAuthenticated_allow_witness :
    CheckWildcardList refLib "192.168.1.7" exGlobals.allowList = true
    ∧ CheckWildcardList refLib "192.168.1.7" exGlobals.denyList = false
    ∧ isAuthenticated refLib exGlobals
        { entries := [("192.168.1.7", 0)], calls := [] } "192.168.1.7" 99000000000000 99000000000001
      = (true, { entries := [("192.168.1.7", 0)], calls := [] }) :=
  ⟨by decide, by decide,
   isAuthenticated_allow refLib exGlobals _ "192.168.1.7" 99000000000000 99000000000001
     (by decide) (by decide)⟩

/-- The verdict of `isAuthenticated` on an address in neither list whose entry
holds `T`. -/
theorem isAuthenticated_entry_iff (L : Lib) (g : Globals) (m : SyncMap) (ip : String)
    (T now storeNow : Time)
    (hdeny : CheckWildcardList L ip g.denyList = false)
    (hallow : CheckWildcardList L ip g.allowList = false)
    (hget : m.get ip = some T) :
    (isAuthenticated L g m ip now storeNow).1 = true ↔ now < T + timeoutDuration g.cfg := by
  rw [isAuthenticated_session L g m ip now storeNow hdeny hallow, hget]
  by_cases hlt : now < T + timeoutDuration g.cfg
  · simp [hlt]
  · simp [hlt]

/-- C3, as the code has it: for an address in neither list whose entry holds
`T`, `isAuthenticated` at query time `now` returns true exactly when
`now < T + timeout`; so it is true on `[T, T + timeout)` and false from
`T + timeout` on, the end point included, and from `T + timeout` on the entry
of the address is removed. -/
theorem isAuthenticated_window (L : Lib) (g : Globals) (m : SyncMap) (ip : String)
    (T now storeNow : Time)
    (hdeny : CheckWildcardList L ip g.denyList = false)
    (hallow : CheckWildcardList L ip g.allowList = false)
    (hget : m.get ip = some T) :
    ((isAuthenticated L g m ip now storeNow).1 = true ↔ now < T + timeoutDuration g.cfg)
    ∧ (T ≤ now → now < T + timeoutDuration g.cfg →
        (isAuthenticated L g m ip now storeNow).1 = true)
    ∧ (T + timeoutDuration g.cfg ≤ now →
        (isAuthenticated L g m ip now storeNow).1 = false)
    ∧ (T + timeoutDuration g.cfg ≤ now →
        (isAuthenticated L g m ip now storeNow).2.get ip = none) := by
  have hiff := isAuthenticated_entry_iff L g m ip T now storeNow hdeny hallow hget
  refine ⟨hiff, fun _ hlt => hiff.mpr hlt, fun hle => ?_, fun hle => ?_⟩
  · cases hres : (isAuthenticated L g m ip now storeNow).1 with
    | false => rfl
    | true => exact absurd (hiff.mp hres) (not_lt.mpr hle)
  · have hnot : ¬ now < T + timeoutDuration g.cfg := not_lt.mpr hle
    rw [isAuthenticated_session L g m ip now storeNow hdeny hallow, hget]
    simp only [hnot, if_false]
    exact SyncMap.get_Delete_self _ _

/-- C3 one nanosecond before the end of the window (true) and at its end
(false, and the entry is gone): the timeout of `exCfg` is 1440 minutes. -/
theorem isAuthenticated_window_witness :
    timeoutDuration exGlobals.cfg = 86400000000000
    ∧ (isAuthenticated refLib exGlobals { entries := [("203.0.113.7", 1000)], calls := [] }
        "203.0.113.7" 86400000000999 86400000001000).1 = true
    ∧ (isAuthenticated refLib exGlobals { entries := [("203.0.113.7", 1000)], calls := [] }
        "203.0.113.7" 86400000001000 86400000001001).1 = false
    ∧ (isAuthenticated refLib exGlobals { entries := [("203.0.113.7", 1000)], calls := [] }
        "203.0.113.7" 86400000001000 86400000001001).2.get "203.0.113.7" = none :=
  ⟨by decide,
   (isAuthenticated_window refLib exGlobals { entries := [("203.0.113.7", 1000)], calls := [] }
      "203.0.113.7" 1000 86400000000999 86400000001000
      (by decide) (by decide) (by decide)).2.1 (by decide) (by decide),
   (isAuthenticated_window refLib exGlobals { entries := [("203.0.113.7", 1000)], calls := [] }
      "203.0.113.7" 1000 86400000001000 86400000001001
      (by decide) (by decide) (by decide)).2.2.1 (by decide),
   (isAuthenticated_window refLib exGlobals { entries := [("203.0.113.7", 1000)], calls := [] }
      "203.0.113.7" 1000 86400000001000 86400000001001
      (by decide) (by decide) (by decide)).2.2.2 (by decide)⟩

/-- C3 as written fails at the end point: the address is in neither list, the
store holds `T = 1000` for it, the query time is `T + timeout`, which satisfies
`T ≤ now ≤ T + timeout`, and `isAuthenticated` returns false and leaves the
store without the entry. -/
theorem isAuthenticated_endpoint_refused :
    CheckWildcardList refLib "203.0.113.7" exGlobals.denyList = false
    ∧ CheckWildcardList refLib "203.0.113.7" exGlobals.allowList = false
    ∧ SyncMap.get { entries := [("203.0.113.7", 1000)], calls := [] } "203.0.113.7" = some 1000
    ∧ (1000 : Time) ≤ 1000 + timeoutDuration exGlobals.cfg
    ∧ (1000 : Time) + timeoutDuration exGlobals.cfg ≤ 1000 + timeoutDuration exGlobals.cfg
    ∧ (isAuthenticated refLib exGlobals { entries := [("203.0.113.7", 1000)], calls := [] }
        "203.0.113.7" (1000 + timeoutDuration exGlobals.cfg)
        (1000 + timeoutDuration exGlobals.cfg)).1 = false
    ∧ (isAuthenticated refLib exGlobals { entries := [("203.0.113.7", 1000)], calls := [] }
        "203.0.113.7" (1000 + timeoutDuration exGlobals.cfg)
        (1000 + timeoutDuration exGlobals.cfg)).2.entries = [] := by
  decide

/-- C4: when `isAuthenticated` returns true from the session store at query time
`q` (the address is in neither list), and the clock reading stored at line 136
is not earlier than the one compared at line 133, then the entry of the address
afterwards holds a time not earlier than `q`, and a following call at any `q'`
with `q ≤ q' < q + timeout` returns true, however late `q'` is for the original
login. -/
theorem isAuthenticated_sliding (L : Lib) (g : Globals) (m : SyncMap) (ip : String)
    (q storeNow : Time)
    (hdeny : CheckWildcardList L ip g.denyList = false)
    (hallow : CheckWildcardList L ip g.allowList = false)
    (hclock : q ≤ storeNow)
    (hauth : (isAuthenticated L g m ip q storeNow).1 = true) :
    (∃ t, (isAuthenticated L g m ip q storeNow).2.get ip = some t ∧ q ≤ t)
    ∧ ∀ q' storeNow' : Time, q ≤ q' → q' < q + timeoutDuration g.cfg →
        (isAuthenticated L g (isAuthenticated L g m ip q storeNow).2 ip q' storeNow').1 = true := by
  rw [isAuthenticated_session L g m ip q storeNow hdeny hallow] at hauth ⊢
  cases hget : m.get ip with
  | none => rw [hget] at hauth; cases hauth
  | some T =>
    rw [hget] at hauth
    simp only at hauth ⊢
    by_cases hlt : q < T + timeoutDuration g.cfg
    · simp only [hlt, if_true]
      have hstored : ((m.Load ip).2.Store ip storeNow).get ip = some storeNow :=
        SyncMap.get_Store_self _ _ _
      refine ⟨⟨storeNow, hstored, hclock⟩, ?_⟩
      intro q' storeNow' _ hq'
      exact (isAuthenticated_entry_iff L g _ ip storeNow q' storeNow' hdeny hallow hstored).2
        (lt_of_lt_of_le hq' (add_le_add_right hclock _))
    · simp only [hlt, if_false] at hauth
      cases hauth

/-- C4 with a login at 0 and a timeout of 1440 minutes (86400 s): a check at
80000 s refreshes the entry, and a check at 100000 s, later than the login plus
the timeout, still succeeds. -/
theorem isAuthenticated_sliding_witness :
    (0 : Time) + timeoutDuration exGlobals.cfg < 100000000000000
    ∧ (isAuthenticated refLib exGlobals
        (isAuthenticated refLib exGlobals { entries := [("203.0.113.7", 0)], calls := [] }
          "203.0.113.7" 80000000000000 80000000000005).2
        "203.0.113.7" 100000000000000 100000000000005).1 = true :=
  ⟨by decide,
   (isAuthenticated_sliding refLib exGlobals { entries := [("203.0.113.7", 0)], calls := [] }
      "203.0.113.7" 80000000000000 80000000000005
      (by decide) (by decide) (by decide) (by decide)).2
      100000000000000 100000000000005 (by decide) (by decide)⟩

/-- C5: for an address in neither list whose entry is expired at the query time,
`isAuthenticated` returns false and removes the entry; the entries of all other
addresses are as before; and after any further events, authorization checks for
any addresses at any times and logins of other addresses, `isAuthenticated` for
the address still returns false: only the `Store` of a login for it brings the
entry back. -/
theorem isAuthenticated_expired (L : Lib) (g : Globals) (m : SyncMap) (ip : String)
    (T now storeNow : Time)
    (hdeny : CheckWildcardList L ip g.denyList = false)
    (hallow : CheckWildcardList L ip g.allowList = false)
    (hget : m.get ip = some T)
    (hexpired : T + timeoutDuration g.cfg ≤ now) :
    (isAuthenticated L g m ip now storeNow).1 = false
    ∧ (isAuthenticated L g m ip now storeNow).2.get ip = none
    ∧ (∀ other : String, other ≠ ip →
        (isAuthenticated L g m ip now storeNow).2.get other = m.get other)
    ∧ ∀ (later : List StoreEvent) (now' storeNow' : Time),
        (∀ t, StoreEvent.login ip t ∉ later) →
        (isAuthenticated L g (after L g (isAuthenticated L g m ip now storeNow).2 later)
          ip now' storeNow').1 = false := by
  have hnot : ¬ now < T + timeoutDuration g.cfg := not_lt.mpr hexpired
  have hrun : isAuthenticated L g m ip now storeNow = (false, (m.Load ip).2.Delete ip) := by
    rw [isAuthenticated_session L g m ip now storeNow hdeny hallow, hget]
    simp only [hnot, if_false]
  have hgone : ((m.Load ip).2.Delete ip).get ip = none := SyncMap.get_Delete_self _ _
  rw [hrun]
  refine ⟨rfl, hgone, ?_, ?_⟩
  · intro other hne
    exact SyncMap.get_Delete_other _ _ _ hne
  · intro later now' storeNow' hno
    rw [isAuthenticated_session L g _ ip now' storeNow' hdeny hallow,
      after_keeps_absent L g ip later _ hno hgone]

/-- C5 with a login at 0 and a check after 90000 s: the entry goes, the entry
of `198.51.100.2` stays, and after a check for that other address and a login
of a third one the first address is still refused, also at a time inside its
old window. -/
theorem isAuthenticated_expired_witness :
    (isAuthenticated refLib exGlobals
        { entries := [("203.0.113.7", 0), ("198.51.100.2", 89000000000000)], calls := [] }
        "203.0.113.7" 90000000000000 90000000000001).2.entries
      = [("198.51.100.2", 89000000000000)]
    ∧ (isAuthenticated refLib exGlobals
        (after refLib exGlobals
          (isAuthenticated refLib exGlobals
            { entries := [("203.0.113.7", 0), ("198.51.100.2", 89000000000000)], calls := [] }
            "203.0.113.7" 90000000000000 90000000000001).2
          [StoreEvent.check "198.51.100.2" 90000000000002 90000000000003,
           StoreEvent.login "198.51.100.3" 90000000000004])
        "203.0.113.7" 5 6).1 = false :=
  ⟨by decide,
   (isAuthenticated_expired refLib exGlobals
      { entries := [("203.0.113.7", 0), ("198.51.100.2", 89000000000000)], calls := [] }
      "203.0.113.7" 0 90000000000000 90000000000001
      (by decide) (by decide) (by decide) (by decide)).2.2.2
      [StoreEvent.check "198.51.100.2" 90000000000002 90000000000003,
       StoreEvent.login "198.51.100.3" 90000000000004] 5 6
      (by intro t ht; simp at ht)⟩

/-! ## The list parser -/

theorem ParseLists.users_eq (L : Lib) (texts : List String) :
    ∀ userList : List User,
      ParseLists.users L texts userList = userList ++ texts.filterMap (enrolledUser L) := by
  induction texts with
  | nil => intro userList; simp [ParseLists.users]
  | cons text rest ih =>
    intro userList
    unfold ParseLists.users
    cases hp : L.urlParse text with
    | error e => simp [enrolledUser, hp, ih, List.filterMap_cons]
    | ok url =>
      by_cases hboth : L.queryGet url "secret" ≠ "" ∧ ParseLists.username url.Path ≠ ""
      · have hboth' : ¬L.queryGet url "secret" = "" ∧ ¬ParseLists.username url.Path = "" := hboth
        simp [hboth', ih, List.filterMap_cons, enrolledUser, hp]
      · have hboth' : ¬(¬L.queryGet url "secret" = "" ∧ ¬ParseLists.username url.Path = "") := hboth
        simp only [ne_eq, hboth', if_false, ih, List.filterMap_cons, enrolledUser, hp]

/-- C10: at start-up `ParseLists` puts into the user list, in the order of the
configuration, exactly the users of the enrolment URLs that carry both a
non-empty secret and a non-empty user name; and when one URL has no secret, the
list is made of the users of the URLs before it followed by the users of the
URLs after it. -/
theorem ParseLists_users (L : Lib) (cfg : Config) :
    (ParseLists L (Globals.atStart cfg)).userList = cfg.Users.filterMap (enrolledUser L)
    ∧ ∀ (before after : List String) (bad : String),
        cfg.Users = before ++ bad :: after →
        (∀ url, L.urlParse bad = .ok url → L.queryGet url "secret" = "") →
        (ParseLists L (Globals.atStart cfg)).userList
          = before.filterMap (enrolledUser L) ++ after.filterMap (enrolledUser L) := by
  have hall : (ParseLists L (Globals.atStart cfg)).userList
      = cfg.Users.filterMap (enrolledUser L) := by
    simp [ParseLists, Globals.atStart, ParseLists.users_eq]
  refine ⟨hall, ?_⟩
  intro before after bad hsplit hbad
  have hnone : enrolledUser L bad = none := by
    unfold enrolledUser
    cases hp : L.urlParse bad with
    | error e => rfl
    | ok url => simp [hbad url hp]
  rw [hall, hsplit, List.filterMap_append, List.filterMap_cons, hnone]

/-- C10 on `exCfg`: the URL of `bob` has no secret; `alice` before it and
`carol` after it are loaded, in that order. -/
theorem ParseLists_users_witness :
    (ParseLists refLib (Globals.atStart exCfg)).userList
      = [{ name := "alice", secret := "ABCDEF" }, { name := "carol", secret := "XYZ" }] :=
  ((ParseLists_users refLib exCfg).2
      ["otpauth://totp/sneck:alice?secret=ABCDEF&issuer=sneck"]
      ["otpauth://totp/sneck:carol?secret=XYZ"]
      "otpauth://totp/sneck:bob?issuer=sneck"
      (by decide)
      (fun url h => by
        have hu : url = { Path := "/sneck:bob", RawQuery := "issuer=sneck" } := by
          have h2 : (Except.ok { Path := "/sneck:bob", RawQuery := "issuer=sneck" }
              : Except GoError URL) = Except.ok url := by
            rw [← h]; rfl
          injection h2 with h3
          exact h3.symm
        rw [hu]
        decide)).trans (by decide)

/-! ## The handlers -/

theorem LoginHandlerPost.loop_valid (L : Lib) (g : Globals) (inputCode realIP : String)
    (clk : Clock) (m : SyncMap) (users : List User)
    (h : ∃ u ∈ users, L.ValidateCustom inputCode u.secret clk.thatTime = true) :
    LoginHandlerPost.loop L g inputCode realIP clk m users
      = ({ status := 302, location := some g.cfg.SuccessUrl },
         m.Store realIP clk.loginStore) := by
  induction users with
  | nil => obtain ⟨u, hu, _⟩ := h; cases hu
  | cons user rest ih =>
    unfold LoginHandlerPost.loop
    by_cases hv : L.ValidateCustom inputCode user.secret clk.thatTime = true
    · simp [hv]
    · simp only [hv]
      apply ih
      obtain ⟨u, hu, huv⟩ := h
      rcases List.mem_cons.mp hu with rfl | hrest
      · exact absurd huv hv
      · exact ⟨u, hrest, huv⟩

theorem LoginHandlerPost.loop_invalid (L : Lib) (g : Globals) (inputCode realIP : String)
    (clk : Clock) (m : SyncMap) (users : List User)
    (h : ¬ ∃ u ∈ users, L.ValidateCustom inputCode u.secret clk.thatTime = true) :
    LoginHandlerPost.loop L g inputCode realIP clk m users
      = ({ status := 403, location := none }, m) := by
  induction users with
  | nil => rfl
  | cons user rest ih =>
    unfold LoginHandlerPost.loop
    have hv : ¬ L.ValidateCustom inputCode user.secret clk.thatTime = true :=
      fun hv => h ⟨user, List.mem_cons_self _ _, hv⟩
    simp only [hv]
    exact ih (fun ⟨u, hu, huv⟩ => h ⟨u, List.mem_cons_of_mem _ hu, huv⟩)

/-- The entries of the store after a check that did not authenticate: as they
were, or without the expired entry of the address. -/
theorem isAuthenticated_refused_entries (L : Lib) (g : Globals) (m : SyncMap)
    (ip : String) (now storeNow : Time)
    (hnot : (isAuthenticated L g m ip now storeNow).1 = false) :
    (isAuthenticated L g m ip now storeNow).2.entries = m.entries
    ∨ (∃ T, m.get ip = some T ∧ T + timeoutDuration g.cfg ≤ now
        ∧ (isAuthenticated L g m ip now storeNow).2.entries
            = m.entries.filter (fun e => e.1 != ip)) := by
  by_cases hd : CheckWildcardList L ip g.denyList = true
  · left; simp [isAuthenticated, hd]
  by_cases ha : CheckWildcardList L ip g.allowList = true
  · simp [isAuthenticated, hd, ha] at hnot
  rw [isAuthenticated_session L g m ip now storeNow (by simpa using hd) (by simpa using ha)]
    at hnot ⊢
  cases hget : m.get ip with
  | none => left; rfl
  | some T =>
    rw [hget] at hnot
    simp only at hnot ⊢
    by_cases hlt : now < T + timeoutDuration g.cfg
    · simp [hlt] at hnot
    · right
      simp only [hlt, if_false]
      exact ⟨T, rfl, not_lt.mp hlt, rfl⟩

/-- C6, as the code has it: for a request with a valid origin IP that is not
authenticated and a non-empty submitted code, `LoginHandlerPost` answers 302
exactly when the code validates for some user of the user list at the instant
read at line 170, and then stores the reading of line 187 for that IP;
otherwise it answers 403 and stores nothing, the session store being as the
authorization check of the same request left it: entries unchanged, or the
expired entry of that IP removed. -/
theorem LoginHandlerPost_submission (L : Lib) (g : Globals) (m : SyncMap) (r : Request)
    (clk : Clock) (realIP : String) (form : List (String × String))
    (hip : TestRealIP L r = .ok realIP)
    (hnot : (isAuthenticated L g m realIP clk.authNow clk.authStore).1 = false)
    (hform : r.ParseForm = .ok form)
    (hcode : valuesGet form "otp" ≠ "") :
    ((LoginHandlerPost L g m r clk).1.status = 302 ↔
      ∃ u ∈ g.userList, L.ValidateCustom (valuesGet form "otp") u.secret clk.thatTime = true)
    ∧ ((∃ u ∈ g.userList, L.ValidateCustom (valuesGet form "otp") u.secret clk.thatTime = true) →
        LoginHandlerPost L g m r clk
          = ({ status := 302, location := some g.cfg.SuccessUrl },
             (isAuthenticated L g m realIP clk.authNow clk.authStore).2.Store realIP
               clk.loginStore))
    ∧ ((¬ ∃ u ∈ g.userList, L.ValidateCustom (valuesGet form "otp") u.secret clk.thatTime = true) →
        LoginHandlerPost L g m r clk
          = ({ status := 403, location := none },
             (isAuthenticated L g m realIP clk.authNow clk.authStore).2))
    ∧ ((isAuthenticated L g m realIP clk.authNow clk.authStore).2.entries = m.entries
        ∨ (∃ T, m.get realIP = some T ∧ T + timeoutDuration g.cfg ≤ clk.authNow
            ∧ (isAuthenticated L g m realIP clk.authNow clk.authStore).2.entries
                = m.entries.filter (fun e => e.1 != realIP))) := by
  have hrun : LoginHandlerPost L g m r clk
      = LoginHandlerPost.loop L g (valuesGet form "otp") realIP clk
          (isAuthenticated L g m realIP clk.authNow clk.authStore).2 g.userList := by
    unfold LoginHandlerPost
    rw [hip]
    simp only
    rcases hres : isAuthenticated L g m realIP clk.authNow clk.authStore with ⟨b, m1⟩
    rw [hres] at hnot
    simp only at hnot
    subst hnot
    simp only [hform, hcode, if_false]
  have hyes := LoginHandlerPost.loop_valid L g (valuesGet form "otp") realIP clk
    (isAuthenticated L g m realIP clk.authNow clk.authStore).2 g.userList
  have hno := LoginHandlerPost.loop_invalid L g (valuesGet form "otp") realIP clk
    (isAuthenticated L g m realIP clk.authNow clk.authStore).2 g.userList
  refine ⟨?_, fun h => hrun.trans (hyes h), fun h => hrun.trans (hno h),
    isAuthenticated_refused_entries L g m realIP clk.authNow clk.authStore hnot⟩
  constructor
  · intro hstatus
    by_contra hnone
    rw [hrun, hno hnone] at hstatus
    simp at hstatus
  · intro h
    rw [hrun, hyes h]

/-- C6 on `exGlobals`: `207198` is the code of `alice` in the step of the
request, the address is unknown to the store, and the login is granted. -/
theorem LoginHandlerPost_submission_witness :
    LoginHandlerPost refLib exGlobals SyncMap.empty (exPost "207198") (exClock 90000000000)
      = ({ status := 302, location := some "/" },
         { entries := [("203.0.113.7", 90000000003)]
           calls := [MapCall.load "203.0.113.7", MapCall.store "203.0.113.7" 90000000003] }) :=
  ((LoginHandlerPost_submission refLib exGlobals SyncMap.empty (exPost "207198")
      (exClock 90000000000) "203.0.113.7" [("otp", "207198")]
      (by rfl) (by decide) (by rfl) (by decide)).2.1
    ⟨{ name := "alice", secret := "ABCDEF" }, by decide, by decide⟩).trans (by decide)

/-- C6 as written fails on the 403 branch: the address has an expired entry, the
code, five digits long, validates for no user, the answer is 403, and the session store is not as
it was: the authorization check of the request removed the expired entry. -/
theorem LoginHandlerPost_forbidden_changes_store :
    (TestRealIP refLib (exPost "12345")).toOption = some "203.0.113.7"
    ∧ (isAuthenticated refLib exGlobals { entries := [("203.0.113.7", 0)], calls := [] }
        "203.0.113.7" (exClock 90000000000000).authNow (exClock 90000000000000).authStore).1 = false
    ∧ valuesGet [("otp", "12345")] "otp" ≠ ""
    ∧ (∀ u ∈ exGlobals.userList,
        refLib.ValidateCustom "12345" u.secret (exClock 90000000000000).thatTime = false)
    ∧ (LoginHandlerPost refLib exGlobals { entries := [("203.0.113.7", 0)], calls := [] }
        (exPost "12345") (exClock 90000000000000)).1.status = 403
    ∧ (LoginHandlerPost refLib exGlobals { entries := [("203.0.113.7", 0)], calls := [] }
        (exPost "12345") (exClock 90000000000000)).2.entries = []
    ∧ (LoginHandlerPost refLib exGlobals { entries := [("203.0.113.7", 0)], calls := [] }
        (exPost "12345") (exClock 90000000000000)).2.entries ≠ [("203.0.113.7", 0)] := by
  decide

/-- C7, as the code has it: when the value of the `X-Real-IP` header, empty for
a missing header, does not parse as an IP address, the authorization check, the
login GET and the login POST that the rate limiter lets through answer 500, a
login POST that the rate limiter rejects is answered 429 by the limiter, and in
each case the session store is returned as it was, without a call into it. -/
theorem bad_header_no_session (L : Lib) (g : Globals) (m : SyncMap) (r : Request)
    (clk : Clock) (reached : Bool)
    (hbad : L.ParseIP (valuesGet r.Header IPHeader) = none) :
    Serve.authRoute L g m r clk = ({ status := 500, location := none }, m)
    ∧ LoginHandlerGet L g m r clk = ({ status := 500, location := none }, m)
    ∧ LoginHandlerPost L g m r clk = ({ status := 500, location := none }, m)
    ∧ (r.Method = "GET" →
        Serve.loginRoute L g reached m r clk = ({ status := 500, location := none }, m))
    ∧ (r.Method = "POST" →
        Serve.loginRoute L g false m r clk = ({ status := 500, location := none }, m))
    ∧ (r.Method = "POST" →
        Serve.loginRoute L g true m r clk = ({ status := 429, location := none }, m)) := by
  have htest : TestRealIP L r = .error { status := 500, location := none } := by
    simp [TestRealIP, hbad]
  have hget : LoginHandlerGet L g m r clk = ({ status := 500, location := none }, m) := by
    simp [LoginHandlerGet, htest]
  have hpost : LoginHandlerPost L g m r clk = ({ status := 500, location := none }, m) := by
    simp [LoginHandlerPost, htest]
  refine ⟨by simp [Serve.authRoute, AuthHandler, htest], hget, hpost, ?_, ?_, ?_⟩
  · intro hm
    simp [Serve.loginRoute, hm, hget]
  · intro hm
    simp [Serve.loginRoute, hm, limiterHandler, hpost]
  · intro hm
    simp [Serve.loginRoute, hm, limiterHandler]

/-- C7 on requests without the header: the authorization check and the login
POST that passes the limiter answer 500 and leave the store, entries and calls,
as it was. -/
theorem bad_header_no_session_witness :
    refLib.ParseIP (valuesGet (exBare "POST").Header IPHeader) = none
    ∧ Serve.authRoute refLib exGlobals { entries := [("203.0.113.7", 0)], calls := [] }
        (exBare "POST") (exClock 5)
      = ({ status := 500, location := none }, { entries := [("203.0.113.7", 0)], calls := [] })
    ∧ Serve.loginRoute refLib exGlobals false { entries := [("203.0.113.7", 0)], calls := [] }
        (exBare "POST") (exClock 5)
      = ({ status := 500, location := none }, { entries := [("203.0.113.7", 0)], calls := [] }) :=
  ⟨by decide,
   (bad_header_no_session refLib exGlobals { entries := [("203.0.113.7", 0)], calls := [] }
      (exBare "POST") (exClock 5) false (by decide)).1,
   (bad_header_no_session refLib exGlobals { entries := [("203.0.113.7", 0)], calls := [] }
      (exBare "POST") (exClock 5) false (by decide)).2.2.2.2.1 (by decide)⟩

/-- C7 as written fails on the login POST endpoint: a POST without the header
that arrives while the limit is reached is answered 429, not 500. -/
theorem bad_header_rate_limited :
    (exBare "POST").Header.lookup IPHeader = none
    ∧ refLib.ParseIP (valuesGet (exBare "POST").Header IPHeader) = none
    ∧ (Serve.loginRoute refLib exGlobals true SyncMap.empty (exBare "POST") (exClock 5)).1.status
        = 429
    ∧ (Serve.loginRoute refLib exGlobals true SyncMap.empty (exBare "POST") (exClock 5)).1.status
        ≠ 500 := by
  decide

end Sneck
